import Mathlib

/-!
# Verification of the Wiseled_LBR illuminator UI communication layer

Shallow embedding of `src/serial_comm.py` (class `WiseledCommunicator`) and the
alarm bookkeeping of `src/app.py` (`process_pending_events`), together with
proofs of the specified properties of the command channel, framer, dispatcher,
event fan-out and alarm de-duplication logic.

Python dictionaries are modelled as association lists with unique keys, JSON
values as an inductive type, and the stateful methods as explicit state-passing
functions.  The environment's behaviour during one `send_command` call (a
matching response delivered, the timeout elapsing, or the transport write
raising) is passed in as an explicit outcome parameter; observable side effects
(thread joins, handle open/close, frame writes, waiter registration) are
recorded in an event trace.
-/

namespace Illuminator

/-- A JSON value, as produced by `json.loads` on one received line.  Numeric
values are modelled as integers (their identity is opaque to the code under
verification). -/
inductive JVal where
  | s : String → JVal
  | n : Int → JVal
  | b : Bool → JVal
  | null : JVal
  | obj : List (String × JVal) → JVal
  | arr : List JVal → JVal

/-- A Python dict with string keys, as an association list (keys unique in all
dicts the program builds). -/
abbrev JDict := List (String × JVal)

/-- A decoded wire message (a JSON object at top level). -/
abbrev Msg := JDict

/-- Lookup in an association list with string keys (Python dicts have unique
keys, so the first binding is the binding). -/
def assocGet {β : Type} : List (String × β) → String → Option β
  | [], _ => none
  | (a, b) :: rest, k => if k = a then some b else assocGet rest k

/-- Key assignment on an association list: replace the binding in place if
the key is present, append a new binding otherwise — exactly Python's
`d[k] = v` on a unique-key dict. -/
def assocSet {β : Type} : List (String × β) → String → β → List (String × β)
  | [], k, v => [(k, v)]
  | (a, b) :: rest, k, v =>
      if a = k then (k, v) :: rest else (a, b) :: assocSet rest k v

/-- Key deletion on an association list: Python's `del d[k]` (a no-op when
the key is absent, matching the guarded `if k in d: del d[k]` uses below). -/
def assocRemove {β : Type} (t : List (String × β)) (k : String) :
    List (String × β) :=
  t.filter (fun p => !(decide (p.1 = k)))

/-- Model of `d.get(k)` on a Python dict: the value bound to `k`, if present. -/
def dictGet (d : JDict) (k : String) : Option JVal :=
  assocGet d k

/-- Model of `d.get(k, default)` on a Python dict. -/
def dictGetD (d : JDict) (k : String) (v : JVal) : JVal :=
  (dictGet d k).getD v

/-- Model of `d[k] = v` on a Python dict. -/
def dictSet (d : JDict) (k : String) (v : JVal) : JDict :=
  assocSet d k v

/-- Model of `response.get("data", {}).get("status") == "ok"`: the status check used by
`connect`'s ping and by every facade operation.  In Python `x == "ok"` holds
only when `x` is the string `"ok"`. -/
def respStatusOk (m : Msg) : Bool :=
  match dictGetD m "data" (JVal.obj []) with
  | JVal.obj d =>
    match dictGet d "status" with
    | some (JVal.s v) => v == "ok"
    | _ => false
  | _ => false

/-- The waiter state of one Pending Command: the `response = [None]` result
slot and the `threading.Event` completion signal of `send_command`. -/
structure PendingEntry where
  resultSlot : Option Msg
  eventSet : Bool

/-- The mutable fields of `WiseledCommunicator` (`__init__`, serial_comm.py
lines 23-36).  Thread handles and the serial handle are modelled as optional
identifiers; the two queues hold decoded messages. -/
structure CommState where
  serial_port : Option Nat
  port_name : String
  baud_rate : Nat
  connected : Bool
  running : Bool
  message_queue : List Msg
  event_callbacks : List Nat
  response_callbacks : List (String × PendingEntry)
  command_id_counter : Nat
  receive_thread : Option Nat
  process_thread : Option Nat
  buffer : String

/-- The initial field values assigned by `WiseledCommunicator.__init__`. -/
def initState : CommState :=
  { serial_port := none
    port_name := ""
    baud_rate := 115200
    connected := false
    running := false
    message_queue := []
    event_callbacks := []
    response_callbacks := []
    command_id_counter := 1
    receive_thread := none
    process_thread := none
    buffer := "" }

/-- Observable side effects of the communicator on its environment. -/
inductive SysEvent where
  | joinReceiveThread : SysEvent
  | joinProcessThread : SysEvent
  | closeHandle : Nat → SysEvent
  | openHandle : Nat → SysEvent
  | registerPending : String → SysEvent
  | writeFrame : Nat → Msg → SysEvent
  | removePending : String → SysEvent

/-- Method `disconnect` (serial_comm.py lines 86-109): clear the running flag, join
and drop both worker threads, close and drop the serial handle, clear the
connected flag, return `True`.  Every other field — in particular `buffer`,
`response_callbacks`, `command_id_counter` and `message_queue` — is left
untouched by the source. -/
def disconnect (st : CommState) : CommState × Bool :=
  ({ st with
      running := false
      receive_thread := none
      process_thread := none
      serial_port := none
      connected := false },
   true)

/-- The side effects `disconnect` performs: bounded-timeout joins of whichever
worker threads exist, then closing the serial handle if one is held. -/
def disconnectTrace (st : CommState) : List SysEvent :=
  (if st.receive_thread.isSome then [SysEvent.joinReceiveThread] else []) ++
  (if st.process_thread.isSome then [SysEvent.joinProcessThread] else []) ++
  (match st.serial_port with
   | some h => [SysEvent.closeHandle h]
   | none => [])

/-- How the environment resolves one `send_command` call: the process thread
delivers a matching response before the deadline, the deadline elapses with no
matching response, or the transport write raises. -/
inductive SendOutcome where
  | respDelivered : Msg → SendOutcome
  | timedOut : SendOutcome
  | writeError : SendOutcome

/-- The correlation id `f"cmd-{self.command_id_counter}"` the next
`send_command` call on `st` will allocate. -/
def nextCmdId (st : CommState) : String :=
  "cmd-" ++ toString st.command_id_counter

/-- Model of `self.response_callbacks[cmd_id] = response_callback`: dict assignment on
the pending-command table, installing a fresh waiter. -/
def registerPendingEntry (t : List (String × PendingEntry)) (k : String) :
    List (String × PendingEntry) :=
  assocSet t k ⟨none, false⟩

/-- Model of `if cmd_id in self.response_callbacks: del self.response_callbacks[cmd_id]`:
the `finally` clause of `send_command`. -/
def removePendingEntry (t : List (String × PendingEntry)) (k : String) :
    List (String × PendingEntry) :=
  assocRemove t k

/-- The effect of `response_callback(resp)` (store the response in the result
slot and set the completion event) on the entry registered for `k` (the entry
exists when the process thread invokes the callback). -/
def deliverToPending (t : List (String × PendingEntry)) (k : String) (m : Msg) :
    List (String × PendingEntry) :=
  assocSet t k ⟨some m, true⟩

/-- The wire message `send_command` builds (serial_comm.py lines 135-141). -/
def buildCommand (cmd_id topic action : String) (data : JDict) : Msg :=
  [("type", JVal.s "cmd"), ("id", JVal.s cmd_id), ("topic", JVal.s topic),
   ("action", JVal.s action), ("data", JVal.obj data)]

/-- Result of one `send_command` call: the post state, the Python return value
(`None` or the response dict), and the trace of observable side effects in
program order. -/
structure SendResult where
  state : CommState
  ret : Option Msg
  trace : List SysEvent

/-- Method `send_command` (serial_comm.py lines 123-175), sequentialised.  When not
connected it returns `None` having touched nothing.  Otherwise it allocates
the next correlation id, registers the Pending Command waiter, and only then
writes the encoded frame; the `try/except/finally` is mirrored per outcome,
the `finally` clause always deleting the waiter entry before returning. -/
def send_command (st : CommState) (topic action : String) (data : JDict)
    (outcome : SendOutcome) : SendResult :=
  if st.connected = false then
    { state := st, ret := none, trace := [] }
  else
    let cmd_id := nextCmdId st
    let st1 := { st with command_id_counter := st.command_id_counter + 1 }
    let command := buildCommand cmd_id topic action data
    let st2 := { st1 with
        response_callbacks := registerPendingEntry st1.response_callbacks cmd_id }
    let h := st2.serial_port.getD 0
    match outcome with
    | SendOutcome.writeError =>
        -- the write raises; `except` swallows it and returns None, the
        -- `finally` clause removes the waiter entry
        { state := { st2 with
              response_callbacks := removePendingEntry st2.response_callbacks cmd_id }
          ret := none
          trace := [SysEvent.registerPending cmd_id,
                    SysEvent.removePending cmd_id] }
    | SendOutcome.timedOut =>
        -- the frame is written, `response_event.wait(timeout)` returns False,
        -- the call logs a warning and returns None; `finally` removes the entry
        { state := { st2 with
              response_callbacks := removePendingEntry st2.response_callbacks cmd_id }
          ret := none
          trace := [SysEvent.registerPending cmd_id,
                    SysEvent.writeFrame h command,
                    SysEvent.removePending cmd_id] }
    | SendOutcome.respDelivered m =>
        -- the process thread invokes the registered callback, filling the
        -- result slot and setting the event; the waiter wakes and returns the
        -- slot's contents; `finally` removes the entry
        let st3 := { st2 with
            response_callbacks := deliverToPending st2.response_callbacks cmd_id m }
        { state := { st3 with
              response_callbacks := removePendingEntry st3.response_callbacks cmd_id }
          ret := some m
          trace := [SysEvent.registerPending cmd_id,
                    SysEvent.writeFrame h command,
                    SysEvent.removePending cmd_id] }

/-- The state from which `connect` opens the new serial port: if the
communicator is already connected, the source first runs `self.disconnect()`
(serial_comm.py lines 47-48). -/
def connect_preOpen (st : CommState) : CommState :=
  if st.connected then (disconnect st).1 else st

/-- The part of `connect` after the port has been opened successfully
(serial_comm.py lines 60-79): set the connection fields, start both worker
threads, send the `system/ping` probe, and on a non-ok or missing ping
response run `self.disconnect()` and fail.  Returns the final state, the
boolean result, and the side effects performed after the port open. -/
def connectAfterOpen (st0 : CommState) (port : String) (baud : Nat) (h : Nat)
    (pingOutcome : SendOutcome) : CommState × Bool × List SysEvent :=
  let st1 := { st0 with
      serial_port := some h
      port_name := port
      baud_rate := baud
      connected := true
      running := true
      receive_thread := some 0
      process_thread := some 1 }
  let r := send_command st1 "system" "ping" [] pingOutcome
  let ok := match r.ret with
            | some m => respStatusOk m
            | none => false
  if ok then (r.state, true, r.trace)
  else ((disconnect r.state).1, false, r.trace ++ disconnectTrace r.state)

/-- Method `connect` (serial_comm.py lines 43-84): disconnect if already
connected, open the port (the environment supplies `openResult`: a fresh
handle, or `none` when `serial.Serial` raises), then proceed per
`connectAfterOpen`; on an open failure, `self.disconnect()` runs and `False`
is returned.  Returns the post state, the boolean result, and the
side-effect trace. -/
def connect (st : CommState) (port : String) (baud : Nat)
    (openResult : Option Nat) (pingOutcome : SendOutcome) :
    CommState × Bool × List SysEvent :=
  let pre : List SysEvent := if st.connected then disconnectTrace st else []
  let st0 := connect_preOpen st
  match openResult with
  | none =>
      -- `serial.Serial(...)` raises; the `except` clause logs, calls
      -- `self.disconnect()` and returns False
      ((disconnect st0).1, false, pre ++ disconnectTrace st0)
  | some h =>
      let r := connectAfterOpen st0 port baud h pingOutcome
      (r.1, r.2.1, pre ++ SysEvent.openHandle h :: r.2.2)

/-- A Python value as returned by the boolean-flavoured facade operations:
`None`, a `bool`, or a dict (`A and B` returns `A` itself when `A` is a falsy
dict). -/
inductive PyVal where
  | pyNone : PyVal
  | pyBool : Bool → PyVal
  | pyDict : JDict → PyVal

/-- Model of `response and response.get("data", {}).get("status") == "ok"`, with
Python's `and` semantics: `None` short-circuits to `None`; a falsy (empty)
dict short-circuits to itself; otherwise the comparison's boolean is
returned.  A present `"data"` value that is not a dict makes `.get` raise
`AttributeError`, modelled as the error case. -/
def boolAndStatusOk (response : Option Msg) : Except String PyVal :=
  match response with
  | none => Except.ok PyVal.pyNone
  | some m =>
      if m.isEmpty then Except.ok (PyVal.pyDict m)
      else
        match dictGetD m "data" (JVal.obj []) with
        | JVal.obj d =>
            Except.ok (PyVal.pyBool
              (match dictGet d "status" with
               | some (JVal.s v) => v == "ok"
               | _ => false))
        | _ => Except.error "AttributeError"

/-- Method `set_light_intensity` (serial_comm.py lines 265-271): one
`light/set` command, then
`return response and response.get("data", {}).get("status") == "ok"`. -/
def set_light_intensity (st : CommState) (light_id intensity : Int)
    (outcome : SendOutcome) : CommState × Except String PyVal :=
  let r := send_command st "light" "set"
      [("id", JVal.n light_id), ("intensity", JVal.n intensity)] outcome
  (r.state, boolAndStatusOk r.ret)

/-! ## The framer loop (serial_comm.py lines 198-215)

The receive thread's inner loop splits the accumulated text buffer at each
newline, strips the extracted line, and — for non-empty lines — either
enqueues the parsed message or logs the parse failure and drops the line.
Buffers and lines are modelled as character lists; the structured parser
(`json.loads`) is a parameter, since the loop's control flow depends only on
whether parsing succeeds. -/

/-- Python `str.strip()`: drop leading and trailing whitespace. -/
def pyStrip (cs : List Char) : List Char :=
  ((cs.dropWhile Char.isWhitespace).reverse.dropWhile Char.isWhitespace).reverse

/-- Model of `buffer.split(sep, 1)` when `sep` occurs: the part before the first
occurrence of `c` and the part after it, or `none` when `c` is absent
(in which case the `while '\n' in self.buffer` loop stops). -/
def splitAtFirst (c : Char) : List Char → Option (List Char × List Char)
  | [] => none
  | x :: xs =>
      if x = c then some ([], xs)
      else
        match splitAtFirst c xs with
        | some (l, r) => some (x :: l, r)
        | none => none

theorem splitAtFirst_rest_length {c : Char} :
    ∀ {cs l r : List Char}, splitAtFirst c cs = some (l, r) →
      r.length < cs.length := by
  intro cs
  induction cs with
  | nil => intro l r h; simp [splitAtFirst] at h
  | cons x xs ih =>
      intro l r h
      by_cases hx : x = c
      · simp [splitAtFirst, hx] at h
        obtain ⟨-, h2⟩ := h
        subst h2
        simp
      · simp [splitAtFirst, hx] at h
        cases hs : splitAtFirst c xs with
        | none => rw [hs] at h; simp at h
        | some p =>
            rw [hs] at h
            simp at h
            have := ih (l := p.1) (r := p.2) (by rw [hs])
            simp [← h.2]
            omega

/-- One pass of the framer's `while '\n' in self.buffer` loop: the list of
messages enqueued for the dispatcher (in order) and the remaining buffer.
Empty lines (after stripping) are skipped; lines the parser rejects are
logged and dropped; parsed messages are enqueued. -/
def processBuffer (parse : List Char → Option JVal) (buf : List Char) :
    List JVal × List Char :=
  match hs : splitAtFirst '\n' buf with
  | none => ([], buf)
  | some (line, rest) =>
      let stripped := pyStrip line
      let here : List JVal :=
        if stripped.isEmpty then []
        else
          match parse stripped with
          | some m => [m]
          | none => []
      let pr := processBuffer parse rest
      (here ++ pr.1, pr.2)
termination_by buf.length
decreasing_by exact splitAtFirst_rest_length hs

/-! ## Event fan-out (serial_comm.py lines 247-253)

`for callback in self.event_callbacks: try: callback(message) except: log`.
A subscriber is a function that either returns or raises (`Except.error`). -/

/-- The fan-out loop over the registered subscribers: the list of invocation
results in registration order, and the exceptions logged by the `except`
clause, in order.  A raising subscriber's exception is caught and the loop
continues with the next subscriber. -/
def fanOut (subs : List (Msg → Except String Unit)) (ev : Msg) :
    List (Except String Unit) × List String :=
  match subs with
  | [] => ([], [])
  | f :: rest =>
      let r := f ev
      let pr := fanOut rest ev
      match r with
      | Except.ok _ => (r :: pr.1, pr.2)
      | Except.error e => (r :: pr.1, e :: pr.2)

/-! ## Alarm bookkeeping (app.py `process_pending_events`, lines 203-226)

For a pending `alarm/triggered` event whose light id was successfully
extracted, the main thread scans `st.session_state.alarm_status` for the
first dict entry whose `"light"` equals the id; if found it overwrites that
entry's `"code"`, `"value"` and `"timestamp"` keys in place and stops
(`break`), otherwise it appends a fresh alarm record. -/

/-- Model of `isinstance(alarm, dict) and alarm.get("light") == light_id`. -/
def alarmMatches (a : JVal) (light_id : Int) : Bool :=
  match a with
  | JVal.obj d =>
      match dictGet d "light" with
      | some (JVal.n m) => m == light_id
      | _ => false
  | _ => false

/-- The in-place field updates `alarm["code"] = code; alarm["value"] = value;
alarm["timestamp"] = timestamp`. -/
def updateAlarmFields (d : JDict) (code value : JVal) (ts : String) : JDict :=
  dictSet (dictSet (dictSet d "code" code) "value" value) "timestamp" (JVal.s ts)

/-- Helper `updateAlarmFields` applied under the dict constructor (non-dict entries
never match, so they are never updated). -/
def setAlarmFields (a : JVal) (code value : JVal) (ts : String) : JVal :=
  match a with
  | JVal.obj d => JVal.obj (updateAlarmFields d code value ts)
  | x => x

/-- The scan-and-update loop with its `break`: `some` of the updated list if
a matching record was found (only the first match is updated), `none` if the
loop fell through with `existing_alarm` still false. -/
def updateFirstAlarm (code value : JVal) (ts : String) (light_id : Int) :
    List JVal → Option (List JVal)
  | [] => none
  | a :: rest =>
      if alarmMatches a light_id then
        some (setAlarmFields a code value ts :: rest)
      else
        match updateFirstAlarm code value ts light_id rest with
        | some rest' => some (a :: rest')
        | none => none

/-- The fresh record built when no existing alarm matched. -/
def mkAlarm (light_id : Int) (code value : JVal) (ts : String) : JDict :=
  [("light", JVal.n light_id), ("code", code), ("value", value),
   ("timestamp", JVal.s ts)]

/-- Processing one triggered-alarm event against the alarm-status list:
update the first matching record in place, else append a new record. -/
def processTriggeredAlarm (alarms : List JVal) (light_id : Int)
    (code value : JVal) (ts : String) : List JVal :=
  match updateFirstAlarm code value ts light_id alarms with
  | some l => l
  | none => alarms ++ [JVal.obj (mkAlarm light_id code value ts)]

/-- The records of the alarm-status list that belong to one light id. -/
def recordsFor (alarms : List JVal) (light_id : Int) : List JVal :=
  alarms.filter (fun a => alarmMatches a light_id)

/-- The spec's invariant: at most one active alarm record per light id. -/
def alarmInv (alarms : List JVal) : Prop :=
  ∀ light_id : Int, (recordsFor alarms light_id).length ≤ 1

/-- The `"code"`, `"value"` and `"timestamp"` fields of an alarm record. -/
def alarmFields (a : JVal) : Option JVal × Option JVal × Option JVal :=
  match a with
  | JVal.obj d => (dictGet d "code", dictGet d "value", dictGet d "timestamp")
  | _ => (none, none, none)

/-! ## Decimal correlation-id arithmetic

The correlation id is `f"cmd-{counter}"`.  To reason about the integer part
of the formatted string we characterise Lean's decimal printer
(`Nat.repr`, the meaning of `toString` on `Nat`) by a structurally recursive
digit-list function and give a verified decoder. -/

/-- The decimal digit characters of `n`, most significant first. -/
def decDigitsChar (n : Nat) : List Char :=
  if _h : n < 10 then [Nat.digitChar n]
  else decDigitsChar (n / 10) ++ [Nat.digitChar (n % 10)]
termination_by n
decreasing_by exact Nat.div_lt_self (by omega) (by omega)

/-- Numeric value of one decimal digit character. -/
def digitVal (c : Char) : Nat := c.toNat - '0'.toNat

/-- Numeric value of a decimal digit string. -/
def digitsVal (l : List Char) : Nat :=
  l.foldl (fun a c => a * 10 + digitVal c) 0

/-- Decode a non-empty all-digit character list; `none` otherwise. -/
def digitsValQ (l : List Char) : Option Nat :=
  if l ≠ [] ∧ l.all Char.isDigit then some (digitsVal l) else none

/-- Decode the characters of a correlation id of the form `cmd-<k>` to its
integer part `k`. -/
def cmdIdNumAux : List Char → Option Nat
  | 'c' :: 'm' :: 'd' :: '-' :: rest => digitsValQ rest
  | _ => none

/-- The integer part of a correlation id string of the form `cmd-<k>`. -/
def cmdIdNum (s : String) : Option Nat :=
  cmdIdNumAux s.data

/-- A sequence of `send_command` calls on one communicator, returning the
final state and the correlation ids allocated (ids are only allocated on the
connected path; a not-connected call returns before reaching line 131). -/
def runCommands : CommState →
    List (String × String × JDict × SendOutcome) → CommState × List String
  | st, [] => (st, [])
  | st, (topic, action, data, outcome) :: rest =>
      let r := send_command st topic action data outcome
      let pr := runCommands r.state rest
      (pr.1, (if st.connected then [nextCmdId st] else []) ++ pr.2)

/-! ## Concrete states and inputs used by the witnesses -/

/-- A connected communicator, as left by a successful `connect` (the ping
consumed correlation id `cmd-1`). -/
def connectedExample : CommState :=
  { initState with
      connected := true
      running := true
      serial_port := some 3
      receive_thread := some 0
      process_thread := some 1
      command_id_counter := 2 }

/-- A connected communicator whose framer buffer holds a partial line. -/
def partialBufferState : CommState :=
  { connectedExample with buffer := "partial line" }

/-- A three-command call sequence with one of each outcome. -/
def callsExample : List (String × String × JDict × SendOutcome) :=
  [("light", "set", [("id", JVal.n 1), ("intensity", JVal.n 75)],
    SendOutcome.respDelivered [("type", JVal.s "resp"), ("id", JVal.s "cmd-2")]),
   ("light", "get", [("id", JVal.n 1)], SendOutcome.timedOut),
   ("system", "info", [], SendOutcome.writeError)]

/-- A concrete line parser for the framer witness: accepts exactly the line
`42`. -/
def demoParse : List Char → Option JVal :=
  fun l => if l = "42".data then some (JVal.n 42) else none

/-! ## Association-list lemmas -/

theorem assocGet_assocSet_self {β : Type} (t : List (String × β)) (k : String)
    (v : β) : assocGet (assocSet t k v) k = some v := by
  induction t with
  | nil => simp [assocSet, assocGet]
  | cons p rest ih =>
      obtain ⟨a, b⟩ := p
      by_cases h : a = k
      · simp [assocSet, assocGet, h]
      · have h2 : ¬ k = a := fun he => h he.symm
        simp [assocSet, assocGet, h, h2, ih]

theorem assocGet_assocSet_ne {β : Type} (t : List (String × β)) (k k' : String)
    (v : β) (h : k' ≠ k) :
    assocGet (assocSet t k v) k' = assocGet t k' := by
  induction t with
  | nil => simp [assocSet, assocGet, h]
  | cons p rest ih =>
      obtain ⟨a, b⟩ := p
      by_cases ha : a = k
      · subst ha
        simp [assocSet, assocGet, h]
      · by_cases hk : k' = a
        · simp [assocSet, assocGet, ha, hk]
        · simp [assocSet, assocGet, ha, hk, ih]

theorem assocGet_assocRemove_self {β : Type} (t : List (String × β))
    (k : String) : assocGet (assocRemove t k) k = none := by
  induction t with
  | nil => rfl
  | cons p rest ih =>
      obtain ⟨a, b⟩ := p
      by_cases h : a = k
      · simpa [assocRemove, List.filter_cons, h] using ih
      · have h2 : ¬ k = a := fun he => h he.symm
        simpa [assocRemove, List.filter_cons, h, assocGet, h2] using ih

/-! ## Lemmas about the decimal printer -/

theorem digitVal_digitChar : ∀ d : Nat, d < 10 →
    digitVal (Nat.digitChar d) = d := by
  decide

theorem digitChar_isDigit : ∀ d : Nat, d < 10 →
    (Nat.digitChar d).isDigit = true := by
  decide

theorem toDigitsCore_eq_decDigitsChar :
    ∀ (fuel n : Nat) (ds : List Char), n < fuel →
      Nat.toDigitsCore 10 fuel n ds = decDigitsChar n ++ ds := by
  intro fuel
  induction fuel with
  | zero => intro n ds h; omega
  | succ f ih =>
      intro n ds hlt
      have hcore : Nat.toDigitsCore 10 (f + 1) n ds =
          (if n / 10 = 0 then Nat.digitChar (n % 10) :: ds
           else Nat.toDigitsCore 10 f (n / 10) (Nat.digitChar (n % 10) :: ds)) := by
        simp [Nat.toDigitsCore]
      rw [hcore]
      by_cases h0 : n / 10 = 0
      · have hn : n < 10 := by omega
        rw [if_pos h0, decDigitsChar]
        simp [hn, Nat.mod_eq_of_lt hn]
      · have hdiv : n / 10 < f := by omega
        rw [if_neg h0, ih (n / 10) (Nat.digitChar (n % 10) :: ds) hdiv]
        conv_rhs => rw [decDigitsChar]
        have hge : ¬ n < 10 := by omega
        simp [hge]

theorem repr_data_eq_decDigitsChar (n : Nat) :
    (Nat.repr n).data = decDigitsChar n := by
  show (Nat.toDigits 10 n).asString.data = _
  rw [Nat.toDigits, toDigitsCore_eq_decDigitsChar (n + 1) n [] (Nat.lt_succ_self n)]
  simp [List.asString]

theorem digitsVal_append_one (l : List Char) (c : Char) :
    digitsVal (l ++ [c]) = digitsVal l * 10 + digitVal c := by
  simp [digitsVal, List.foldl_append]

theorem digitsVal_decDigitsChar (n : Nat) : digitsVal (decDigitsChar n) = n := by
  induction n using Nat.strong_induction_on with
  | _ n ih =>
      rw [decDigitsChar]
      by_cases h : n < 10
      · simp [h, digitsVal, digitVal_digitChar n h]
      · have h1 : 0 < n := by omega
        have h2 : n / 10 < n := Nat.div_lt_self h1 (by omega)
        simp [h, digitsVal_append_one, ih (n / 10) h2,
              digitVal_digitChar (n % 10) (Nat.mod_lt n (by omega))]
        omega

theorem decDigitsChar_ne_nil (n : Nat) : decDigitsChar n ≠ [] := by
  rw [decDigitsChar]
  by_cases h : n < 10 <;> simp [h]

theorem decDigitsChar_all_digits (n : Nat) :
    (decDigitsChar n).all Char.isDigit = true := by
  induction n using Nat.strong_induction_on with
  | _ n ih =>
      rw [decDigitsChar]
      by_cases h : n < 10
      · simp [h, digitChar_isDigit n h]
      · have h1 : 0 < n := by omega
        have h2 : n / 10 < n := Nat.div_lt_self h1 (by omega)
        simp [h, ih (n / 10) h2,
              digitChar_isDigit (n % 10) (Nat.mod_lt n (by omega))]

theorem digitsValQ_decDigitsChar (n : Nat) :
    digitsValQ (decDigitsChar n) = some n := by
  rw [digitsValQ,
      if_pos ⟨decDigitsChar_ne_nil n, decDigitsChar_all_digits n⟩,
      digitsVal_decDigitsChar]

theorem string_data_append (a b : String) : (a ++ b).data = a.data ++ b.data := by
  cases a; cases b; rfl

theorem cmdIdNum_formatted (k : Nat) :
    cmdIdNum ("cmd-" ++ toString k) = some k := by
  have hdata : ("cmd-" ++ toString k).data =
      'c' :: 'm' :: 'd' :: '-' :: decDigitsChar k := by
    rw [string_data_append]
    show ['c', 'm', 'd', '-'] ++ (Nat.repr k).data = _
    rw [repr_data_eq_decDigitsChar]
    rfl
  rw [cmdIdNum, hdata]
  show digitsValQ (decDigitsChar k) = some k
  exact digitsValQ_decDigitsChar k

/-! ## State-preservation lemmas for `send_command` -/

theorem send_command_connected (st : CommState) (topic action : String)
    (data : JDict) (o : SendOutcome) :
    (send_command st topic action data o).state.connected = st.connected := by
  unfold send_command
  split
  · rfl
  · cases o <;> rfl

theorem send_command_counter (st : CommState) (topic action : String)
    (data : JDict) (o : SendOutcome) (h : st.connected = true) :
    (send_command st topic action data o).state.command_id_counter =
      st.command_id_counter + 1 := by
  unfold send_command
  rw [if_neg (by simp [h])]
  cases o <;> rfl

theorem send_command_buffer (st : CommState) (topic action : String)
    (data : JDict) (o : SendOutcome) :
    (send_command st topic action data o).state.buffer = st.buffer := by
  unfold send_command
  split
  · rfl
  · cases o <;> rfl

/-! ## Framer lemmas -/

theorem splitAtFirst_not_mem {c : Char} :
    ∀ {cs : List Char}, c ∉ cs → splitAtFirst c cs = none := by
  intro cs
  induction cs with
  | nil => intro _; rfl
  | cons x xs ih =>
      intro h
      have hx : ¬ x = c := by intro he; exact h (by simp [he])
      have hxs : c ∉ xs := fun hm => h (List.mem_cons_of_mem _ hm)
      simp [splitAtFirst, hx, ih hxs]

theorem splitAtFirst_first {c : Char} :
    ∀ {l : List Char} (r : List Char), c ∉ l →
      splitAtFirst c (l ++ c :: r) = some (l, r) := by
  intro l
  induction l with
  | nil => intro r _; simp [splitAtFirst]
  | cons x xs ih =>
      intro r h
      have hx : ¬ x = c := by intro he; exact h (by simp [he])
      have hxs : c ∉ xs := fun hm => h (List.mem_cons_of_mem _ hm)
      simp [splitAtFirst, hx, ih r hxs]

theorem processBuffer_split_none (parse : List Char → Option JVal)
    (buf : List Char) (hs : splitAtFirst '\n' buf = none) :
    processBuffer parse buf = ([], buf) := by
  rw [processBuffer]
  split
  · rfl
  · rename_i line rest heq
    rw [hs] at heq
    exact absurd heq (by simp)

theorem processBuffer_split_some (parse : List Char → Option JVal)
    (buf line rest : List Char)
    (hs : splitAtFirst '\n' buf = some (line, rest)) :
    processBuffer parse buf =
      ((if (pyStrip line).isEmpty then []
        else
          match parse (pyStrip line) with
          | some m => [m]
          | none => []) ++ (processBuffer parse rest).1,
       (processBuffer parse rest).2) := by
  rw [processBuffer]
  split
  · rename_i heq
    rw [hs] at heq
    exact absurd heq (by simp)
  · rename_i line2 rest2 heq
    rw [hs] at heq
    have h2 : line2 = line ∧ rest2 = rest := by
      have := heq.symm
      simp at this
      exact this
    obtain ⟨h3, h4⟩ := h2
    subst h3
    subst h4
    rfl

/-! ## Alarm-bookkeeping lemmas -/

theorem recordsFor_cons (a : JVal) (xs : List JVal) (lid : Int) :
    recordsFor (a :: xs) lid =
      if alarmMatches a lid then a :: recordsFor xs lid
      else recordsFor xs lid := by
  simp [recordsFor, List.filter_cons]

theorem recordsFor_append (xs ys : List JVal) (lid : Int) :
    recordsFor (xs ++ ys) lid = recordsFor xs lid ++ recordsFor ys lid := by
  simp [recordsFor, List.filter_append]

theorem alarmFields_updateAlarmFields (d : JDict) (c v : JVal) (ts : String) :
    alarmFields (JVal.obj (updateAlarmFields d c v ts)) =
      (some c, some v, some (JVal.s ts)) := by
  have hts : dictGet (updateAlarmFields d c v ts) "timestamp" =
      some (JVal.s ts) := assocGet_assocSet_self _ _ _
  have hv : dictGet (updateAlarmFields d c v ts) "value" = some v := by
    unfold updateAlarmFields dictGet dictSet
    rw [assocGet_assocSet_ne _ _ _ _ (by decide)]
    exact assocGet_assocSet_self _ _ _
  have hc : dictGet (updateAlarmFields d c v ts) "code" = some c := by
    unfold updateAlarmFields dictGet dictSet
    rw [assocGet_assocSet_ne _ _ _ _ (by decide),
        assocGet_assocSet_ne _ _ _ _ (by decide)]
    exact assocGet_assocSet_self _ _ _
  simp [alarmFields, hc, hv, hts]

theorem alarmMatches_setAlarmFields (a : JVal) (lid' : Int) (c v : JVal)
    (ts : String) :
    alarmMatches (setAlarmFields a c v ts) lid' = alarmMatches a lid' := by
  cases a <;> simp [setAlarmFields, alarmMatches]
  case obj d =>
    have hl : dictGet (updateAlarmFields d c v ts) "light" = dictGet d "light" := by
      unfold updateAlarmFields dictGet dictSet
      rw [assocGet_assocSet_ne _ _ _ _ (by decide),
          assocGet_assocSet_ne _ _ _ _ (by decide),
          assocGet_assocSet_ne _ _ _ _ (by decide)]
    rw [hl]

theorem alarmMatches_mkAlarm (lid lid' : Int) (c v : JVal) (ts : String) :
    alarmMatches (JVal.obj (mkAlarm lid c v ts)) lid' = (lid == lid') := by
  simp [alarmMatches, mkAlarm, dictGet, assocGet]

theorem alarmFields_mkAlarm (lid : Int) (c v : JVal) (ts : String) :
    alarmFields (JVal.obj (mkAlarm lid c v ts)) =
      (some c, some v, some (JVal.s ts)) := by
  simp [alarmFields, mkAlarm, dictGet, assocGet]

theorem alarmMatches_unique (a : JVal) (lid lid' : Int)
    (h : alarmMatches a lid = true) (hne : lid' ≠ lid) :
    alarmMatches a lid' = false := by
  cases a with
  | obj d =>
      simp only [alarmMatches] at h ⊢
      cases hg : dictGet d "light" with
      | none => rw [hg] at h
      | some jv =>
          rw [hg] at h
          cases jv <;> simp at h ⊢
          case n m =>
            subst h
            exact fun he => absurd he.symm hne
  | s x => simp [alarmMatches] at h
  | n x => simp [alarmMatches] at h
  | b x => simp [alarmMatches] at h
  | null => simp [alarmMatches] at h
  | arr x => simp [alarmMatches] at h

theorem updateFirstAlarm_none_iff (c v : JVal) (ts : String) (lid : Int) :
    ∀ alarms : List JVal,
      updateFirstAlarm c v ts lid alarms = none ↔ recordsFor alarms lid = [] := by
  intro alarms
  induction alarms with
  | nil => simp [updateFirstAlarm, recordsFor]
  | cons a rest ih =>
      by_cases h : alarmMatches a lid
      · simp [updateFirstAlarm, h, recordsFor_cons]
      · rw [recordsFor_cons, if_neg h, ← ih]
        cases hu : updateFirstAlarm c v ts lid rest <;>
          simp [updateFirstAlarm, h, hu]

theorem updateFirstAlarm_records (c v : JVal) (ts : String) (lid : Int) :
    ∀ (alarms l' : List JVal),
      updateFirstAlarm c v ts lid alarms = some l' →
      l'.length = alarms.length ∧
      (∀ lid' : Int, lid' ≠ lid → recordsFor l' lid' = recordsFor alarms lid') ∧
      ∃ a tl, alarmMatches a lid = true ∧
        recordsFor alarms lid = a :: tl ∧
        recordsFor l' lid = setAlarmFields a c v ts :: tl := by
  intro alarms
  induction alarms with
  | nil => intro l' h; simp [updateFirstAlarm] at h
  | cons a rest ih =>
      intro l' h
      by_cases hm : alarmMatches a lid
      · simp [updateFirstAlarm, hm] at h
        subst h
        refine ⟨by simp, ?_, a, recordsFor rest lid, hm, ?_, ?_⟩
        · intro lid' hne
          have hma : alarmMatches a lid' = false :=
            alarmMatches_unique a lid lid' hm hne
          rw [recordsFor_cons, recordsFor_cons, alarmMatches_setAlarmFields,
              hma]
          simp
        · rw [recordsFor_cons, if_pos hm]
        · rw [recordsFor_cons, alarmMatches_setAlarmFields, if_pos hm]
      · cases hu : updateFirstAlarm c v ts lid rest with
        | none => simp [updateFirstAlarm, hm, hu] at h
        | some r' =>
            simp [updateFirstAlarm, hm, hu] at h
            subst h
            obtain ⟨hlen, hne, aa, tl, hmm, hrec, hrec'⟩ := ih r' hu
            refine ⟨by simp [hlen], ?_, aa, tl, hmm, ?_, ?_⟩
            · intro lid' hx
              rw [recordsFor_cons, recordsFor_cons, hne lid' hx]
            · rw [recordsFor_cons, if_neg (by simp [hm]), hrec]
            · rw [recordsFor_cons, if_neg (by simp [hm]), hrec']

theorem recordsFor_processTriggeredAlarm (alarms : List JVal) (lid : Int)
    (c v : JVal) (ts : String) (h : (recordsFor alarms lid).length ≤ 1) :
    (recordsFor (processTriggeredAlarm alarms lid c v ts) lid).map alarmFields
      = [(some c, some v, some (JVal.s ts))] := by
  unfold processTriggeredAlarm
  cases hu : updateFirstAlarm c v ts lid alarms with
  | none =>
      have hrec : recordsFor alarms lid = [] :=
        (updateFirstAlarm_none_iff c v ts lid alarms).mp hu
      rw [recordsFor_append, hrec, List.nil_append, recordsFor_cons,
          alarmMatches_mkAlarm]
      simp [recordsFor, alarmFields_mkAlarm]
  | some l' =>
      obtain ⟨hlen, hne, a, tl, hm, hrec, hrec'⟩ :=
        updateFirstAlarm_records c v ts lid alarms l' hu
      have htl : tl = [] := by
        rw [hrec] at h
        simpa using h
      subst htl
      rw [hrec']
      cases a with
      | obj d => simp [setAlarmFields, alarmFields_updateAlarmFields]
      | s x => simp [alarmMatches] at hm
      | n x => simp [alarmMatches] at hm
      | b x => simp [alarmMatches] at hm
      | null => simp [alarmMatches] at hm
      | arr x => simp [alarmMatches] at hm

theorem processTriggeredAlarm_inv (alarms : List JVal) (lid : Int)
    (c v : JVal) (ts : String) (h : alarmInv alarms) :
    alarmInv (processTriggeredAlarm alarms lid c v ts) := by
  intro lid'
  unfold processTriggeredAlarm
  cases hu : updateFirstAlarm c v ts lid alarms with
  | none =>
      rw [recordsFor_append]
      by_cases he : lid = lid'
      · subst he
        have hrec : recordsFor alarms lid = [] :=
          (updateFirstAlarm_none_iff c v ts lid alarms).mp hu
        rw [hrec, List.nil_append, recordsFor_cons, alarmMatches_mkAlarm]
        simp [recordsFor]
      · have hnone : recordsFor [JVal.obj (mkAlarm lid c v ts)] lid' = [] := by
          rw [recordsFor_cons, alarmMatches_mkAlarm]
          simp [recordsFor, he]
        rw [hnone, List.append_nil]
        exact h lid'
  | some l' =>
      obtain ⟨hlen, hne, a, tl, hm, hrec, hrec'⟩ :=
        updateFirstAlarm_records c v ts lid alarms l' hu
      by_cases he : lid' = lid
      · subst he
        rw [hrec']
        have hh := h lid'
        rw [hrec] at hh
        simpa using hh
      · rw [hne lid' he]
        exact h lid'

theorem updateFirstAlarm_length (c v : JVal) (ts : String) (lid : Int)
    (alarms l' : List JVal) (h : updateFirstAlarm c v ts lid alarms = some l') :
    l'.length = alarms.length :=
  (updateFirstAlarm_records c v ts lid alarms l' h).1

theorem runCommands_ids :
    ∀ (calls : List (String × String × JDict × SendOutcome)) (st : CommState),
      st.connected = true →
      (runCommands st calls).2 =
        (List.range calls.length).map
          (fun k => "cmd-" ++ toString (st.command_id_counter + k)) := by
  intro calls
  induction calls with
  | nil => intro st h; rfl
  | cons c rest ih =>
      intro st h
      obtain ⟨topic, action, data, outcome⟩ := c
      have hc : (send_command st topic action data outcome).state.connected = true := by
        rw [send_command_connected]; exact h
      have hctr := send_command_counter st topic action data outcome h
      simp only [runCommands]
      rw [ih (send_command st topic action data outcome).state hc, hctr, h]
      rw [List.length_cons, List.range_succ_eq_map]
      simp only [if_true, List.map_cons, List.map_map, List.singleton_append]
      congr 1
      refine List.map_congr_left ?_
      intro a _
      have harith : st.command_id_counter + 1 + a =
          st.command_id_counter + (a + 1) := by omega
      simp [Function.comp, harith]

/-- **C2.** For every sequence of `send_command` calls on one communicator
while connected, the correlation ids allocated are exactly the strings
`cmd-<k>` for the successive counter values: their decoded integer parts
are the strictly increasing consecutive counters, any two ids in the
sequence have strictly ordered integer parts, and the ids are pairwise
distinct (no id is ever reused, since the counter only grows over the
connection's lifetime). -/
theorem correlation_ids_strictly_increasing (st : CommState)
    (calls : List (String × String × JDict × SendOutcome))
    (h : st.connected = true) :
    (runCommands st calls).2 =
      (List.range calls.length).map
        (fun k => "cmd-" ++ toString (st.command_id_counter + k))
    ∧ (runCommands st calls).2.map cmdIdNum =
      (List.range calls.length).map
        (fun k => some (st.command_id_counter + k))
    ∧ List.Pairwise
        (fun s1 s2 => ∀ x y, cmdIdNum s1 = some x → cmdIdNum s2 = some y → x < y)
        (runCommands st calls).2
    ∧ (runCommands st calls).2.Nodup := by
  have h1 := runCommands_ids calls st h
  have hinj : Function.Injective
      (fun k => "cmd-" ++ toString (st.command_id_counter + k)) := by
    intro a b hab
    have h2 := congrArg cmdIdNum hab
    rw [cmdIdNum_formatted, cmdIdNum_formatted] at h2
    injection h2 with h3
    omega
  refine ⟨h1, ?_, ?_, ?_⟩
  · rw [h1, List.map_map]
    refine List.map_congr_left ?_
    intro k _
    simp only [Function.comp]
    exact cmdIdNum_formatted _
  · rw [h1, List.pairwise_map]
    refine (List.pairwise_lt_range _).imp ?_
    intro a b hab x y hx hy
    rw [cmdIdNum_formatted] at hx hy
    injection hx with hx2
    injection hy with hy2
    omega
  · rw [h1]
    exact (List.nodup_range _).map hinj

/-- Witness for C2: three concrete calls on a concrete connected state. -/
theorem correlation_ids_strictly_increasing_witness :
    connectedExample.connected = true ∧
    ((runCommands connectedExample callsExample).2 =
        (List.range callsExample.length).map
          (fun k => "cmd-" ++ toString (connectedExample.command_id_counter + k))
      ∧ (runCommands connectedExample callsExample).2.map cmdIdNum =
        (List.range callsExample.length).map
          (fun k => some (connectedExample.command_id_counter + k))
      ∧ List.Pairwise
          (fun s1 s2 => ∀ x y, cmdIdNum s1 = some x → cmdIdNum s2 = some y → x < y)
          (runCommands connectedExample callsExample).2
      ∧ (runCommands connectedExample callsExample).2.Nodup) :=
  ⟨rfl, correlation_ids_strictly_increasing connectedExample callsExample rfl⟩

/-- **C1.** On every return path of a connected `send_command` call — matching
response delivered, timeout elapsed, or an exception during the transport
write — the `finally` clause has removed the Pending Command entry registered
for that call's correlation id from the response-callbacks table by the time
the call returns; on timeout (and on a write error) the call returns the
no-response value `None`, and on delivery it returns the response. -/
theorem send_command_removes_pending_entry (st : CommState)
    (topic action : String) (data : JDict) (outcome : SendOutcome)
    (h : st.connected = true) :
    assocGet (send_command st topic action data outcome).state.response_callbacks
        (nextCmdId st) = none
    ∧ (outcome = SendOutcome.timedOut →
        (send_command st topic action data outcome).ret = none)
    ∧ (outcome = SendOutcome.writeError →
        (send_command st topic action data outcome).ret = none)
    ∧ (∀ m, outcome = SendOutcome.respDelivered m →
        (send_command st topic action data outcome).ret = some m) := by
  refine ⟨?_, ?_, ?_, ?_⟩
  · unfold send_command
    rw [if_neg (by simp [h])]
    cases outcome
    · exact assocGet_assocRemove_self _ _
    · exact assocGet_assocRemove_self _ _
    · exact assocGet_assocRemove_self _ _
  · intro hx
    subst hx
    unfold send_command
    rw [if_neg (by simp [h])]
  · intro hx
    subst hx
    unfold send_command
    rw [if_neg (by simp [h])]
  · intro m hx
    subst hx
    unfold send_command
    rw [if_neg (by simp [h])]

/-- Witness for C1: a timed-out call on a concrete connected state. -/
theorem send_command_removes_pending_entry_witness :
    connectedExample.connected = true ∧
    (assocGet (send_command connectedExample "light" "get"
          [("id", JVal.n 1)] SendOutcome.timedOut).state.response_callbacks
        (nextCmdId connectedExample) = none
      ∧ (SendOutcome.timedOut = SendOutcome.timedOut →
          (send_command connectedExample "light" "get"
            [("id", JVal.n 1)] SendOutcome.timedOut).ret = none)
      ∧ (SendOutcome.timedOut = SendOutcome.writeError →
          (send_command connectedExample "light" "get"
            [("id", JVal.n 1)] SendOutcome.timedOut).ret = none)
      ∧ (∀ m, SendOutcome.timedOut = SendOutcome.respDelivered m →
          (send_command connectedExample "light" "get"
            [("id", JVal.n 1)] SendOutcome.timedOut).ret = some m)) :=
  ⟨rfl, send_command_removes_pending_entry connectedExample "light" "get"
    [("id", JVal.n 1)] SendOutcome.timedOut rfl⟩

/-- **C5.** In every connected `send_command` execution the Pending Command
entry for the allocated correlation id is installed in the response-callbacks
table (line 153) before the encoded command is written to the transport
(line 158): the trace starts with the registration, every `writeFrame` event
is strictly preceded by the registration of that call's id, and the table the
registration produces does contain the fresh waiter under that id. -/
theorem pending_registered_before_write (st : CommState)
    (topic action : String) (data : JDict) (outcome : SendOutcome)
    (h : st.connected = true) :
    (send_command st topic action data outcome).trace.head? =
      some (SysEvent.registerPending (nextCmdId st))
    ∧ assocGet (registerPendingEntry st.response_callbacks (nextCmdId st))
        (nextCmdId st) = some ⟨none, false⟩
    ∧ ∀ i hdl m,
        (send_command st topic action data outcome).trace.get? i =
          some (SysEvent.writeFrame hdl m) →
        ∃ j, j < i ∧
          (send_command st topic action data outcome).trace.get? j =
            some (SysEvent.registerPending (nextCmdId st)) := by
  refine ⟨?_, assocGet_assocSet_self _ _ _, ?_⟩
  · unfold send_command
    rw [if_neg (by simp [h])]
    cases outcome
    · rfl
    · rfl
    · rfl
  · unfold send_command
    rw [if_neg (by simp [h])]
    cases outcome with
    | respDelivered m =>
        intro i hdl mm hi
        rcases i with _ | _ | _ | i
        · simp at hi
        · exact ⟨0, Nat.zero_lt_one, rfl⟩
        · simp at hi
        · simp at hi
    | timedOut =>
        intro i hdl mm hi
        rcases i with _ | _ | _ | i
        · simp at hi
        · exact ⟨0, Nat.zero_lt_one, rfl⟩
        · simp at hi
        · simp at hi
    | writeError =>
        intro i hdl mm hi
        rcases i with _ | _ | i
        · simp at hi
        · simp at hi
        · simp at hi

/-- Witness for C5: a delivered-response call on a concrete connected state. -/
theorem pending_registered_before_write_witness :
    connectedExample.connected = true ∧
    ((send_command connectedExample "system" "ping" []
        (SendOutcome.respDelivered [("type", JVal.s "resp")])).trace.head? =
      some (SysEvent.registerPending (nextCmdId connectedExample))
      ∧ assocGet (registerPendingEntry connectedExample.response_callbacks
            (nextCmdId connectedExample)) (nextCmdId connectedExample) =
          some ⟨none, false⟩
      ∧ ∀ i hdl m,
          (send_command connectedExample "system" "ping" []
            (SendOutcome.respDelivered [("type", JVal.s "resp")])).trace.get? i =
            some (SysEvent.writeFrame hdl m) →
          ∃ j, j < i ∧
            (send_command connectedExample "system" "ping" []
              (SendOutcome.respDelivered [("type", JVal.s "resp")])).trace.get? j =
              some (SysEvent.registerPending (nextCmdId connectedExample))) :=
  ⟨rfl, pending_registered_before_write connectedExample "system" "ping" []
    (SendOutcome.respDelivered [("type", JVal.s "resp")]) rfl⟩

theorem disconnect_buffer (st : CommState) :
    (disconnect st).1.buffer = st.buffer := rfl

theorem connectAfterOpen_buffer (st0 : CommState) (port : String) (baud h : Nat)
    (ping : SendOutcome) :
    (connectAfterOpen st0 port baud h ping).1.buffer = st0.buffer := by
  simp only [connectAfterOpen]
  split
  · rw [send_command_buffer]
  · rw [disconnect_buffer, send_command_buffer]

/-- **C3** counterexample: disconnecting a communicator whose framer buffer
holds a partial line leaves that buffer holding the partial line — it is not
the empty string after `disconnect` returns. -/
theorem disconnect_buffer_counterexample :
    (disconnect partialBufferState).1.buffer = "partial line"
    ∧ (disconnect partialBufferState).1.buffer ≠ "" := by
  refine ⟨rfl, ?_⟩
  intro hx
  exact absurd hx (by decide)

/-- **C3** amended: `disconnect` (and a subsequent `connect`) leaves the
framer's accumulated text buffer exactly as it was — the source never clears
`self.buffer`, so a partial line left over from one connection survives into
the next connection. -/
theorem buffer_survives_disconnect (st : CommState) (port : String)
    (baud : Nat) (openResult : Option Nat) (ping : SendOutcome) :
    (disconnect st).1.buffer = st.buffer
    ∧ (connect st port baud openResult ping).1.buffer = st.buffer := by
  refine ⟨rfl, ?_⟩
  have hpre : (connect_preOpen st).buffer = st.buffer := by
    unfold connect_preOpen
    split <;> rfl
  cases openResult with
  | none =>
      show (disconnect (connect_preOpen st)).1.buffer = st.buffer
      rw [disconnect_buffer, hpre]
  | some hdl =>
      show (connectAfterOpen (connect_preOpen st) port baud hdl ping).1.buffer
        = st.buffer
      rw [connectAfterOpen_buffer, hpre]

/-- **C4** (code bug): at the failing input — no response arrives, because of
a timeout or because the communicator is not connected — `set_light_intensity`
evaluates `response and ...` with `response = None` and therefore returns the
Python value `None`, not the boolean `False` its signature and the spec
promise; when a response does arrive it returns `True` exactly on
`status == "ok"` and `False` otherwise, as claimed. -/
theorem set_light_intensity_none_not_false :
    (set_light_intensity connectedExample 1 50 SendOutcome.timedOut).2 =
      Except.ok PyVal.pyNone
    ∧ (set_light_intensity initState 1 50 SendOutcome.timedOut).2 =
      Except.ok PyVal.pyNone
    ∧ Except.ok PyVal.pyNone ≠
        (Except.ok (PyVal.pyBool false) : Except String PyVal)
    ∧ (set_light_intensity connectedExample 1 50
        (SendOutcome.respDelivered
          [("type", JVal.s "resp"), ("id", JVal.s "cmd-2"),
           ("data", JVal.obj [("status", JVal.s "ok")])])).2 =
      Except.ok (PyVal.pyBool true)
    ∧ (set_light_intensity connectedExample 1 50
        (SendOutcome.respDelivered
          [("type", JVal.s "resp"), ("id", JVal.s "cmd-2"),
           ("data", JVal.obj [("status", JVal.s "overheat")])])).2 =
      Except.ok (PyVal.pyBool false) := by
  refine ⟨rfl, rfl, ?_, rfl, rfl⟩
  intro hx
  injection hx with h2
  exact PyVal.noConfusion h2

/-- **C6.** A line that the structured parser rejects, followed by a line it
accepts, makes the framer loop enqueue exactly one message for the
dispatcher — the parsed one — with the malformed line dropped, the buffer
fully consumed, and no exception escaping (the model is a total function). -/
theorem malformed_line_dropped (parse : List Char → Option JVal)
    (l1 l2 : List Char) (m : JVal)
    (h1 : ¬ '\n' ∈ l1) (h2 : ¬ '\n' ∈ l2)
    (hbad : parse (pyStrip l1) = none)
    (hgood : parse (pyStrip l2) = some m)
    (hne : (pyStrip l2).isEmpty = false) :
    processBuffer parse (l1 ++ '\n' :: (l2 ++ ['\n'])) = ([m], []) := by
  have hs1 : splitAtFirst '\n' (l1 ++ '\n' :: (l2 ++ ['\n'])) =
      some (l1, l2 ++ ['\n']) := splitAtFirst_first _ h1
  have hs2 : splitAtFirst '\n' (l2 ++ ['\n']) = some (l2, []) :=
    splitAtFirst_first [] h2
  rw [processBuffer_split_some parse _ _ _ hs1,
      processBuffer_split_some parse _ _ _ hs2,
      processBuffer_split_none parse [] rfl]
  by_cases hE : (pyStrip l1).isEmpty <;> simp [hE, hbad, hgood, hne]

/-- Witness for C6: the malformed line `oops` followed by the well-formed
line `" 42 "` (whitespace stripped) yields exactly the one parsed message. -/
theorem malformed_line_dropped_witness :
    ((¬ '\n' ∈ "oops".data) ∧ (¬ '\n' ∈ " 42 ".data)
      ∧ demoParse (pyStrip "oops".data) = none
      ∧ demoParse (pyStrip " 42 ".data) = some (JVal.n 42)
      ∧ (pyStrip " 42 ".data).isEmpty = false)
    ∧ processBuffer demoParse ("oops".data ++ '\n' :: (" 42 ".data ++ ['\n'])) =
        ([JVal.n 42], []) :=
  ⟨⟨by decide, by decide, rfl, rfl, rfl⟩,
   malformed_line_dropped demoParse "oops".data " 42 ".data (JVal.n 42)
     (by decide) (by decide) rfl rfl rfl⟩

/-- **C7.** The event fan-out loop invokes every registered subscriber, in
registration order, with the same event: the invocation list is exactly the
subscriber list applied to the event (so a raising subscriber stops nothing
and the loop never terminates early), and the logged exceptions are exactly
the errors raised, in order. -/
theorem event_fanout_isolation (subs : List (Msg → Except String Unit))
    (ev : Msg) :
    (fanOut subs ev).1 = subs.map (fun f => f ev)
    ∧ (fanOut subs ev).2 = subs.filterMap (fun f =>
        match f ev with
        | Except.error e => some e
        | Except.ok _ => none) := by
  induction subs with
  | nil => exact ⟨rfl, rfl⟩
  | cons f rest ih =>
      cases hr : f ev with
      | ok u => simp [fanOut, hr, ih.1, ih.2, List.filterMap_cons]
      | error e => simp [fanOut, hr, ih.1, ih.2, List.filterMap_cons]

/-- **C8** (code bug): the source `disconnect` only clears the running and
connected flags, joins and drops the worker threads, and closes the serial
handle; the response-callbacks table is left exactly as it was, so no pending
waiter's completion event is ever set or removed on disconnect — a blocked
`send_command` caller keeps waiting for its full timeout instead of
observing the disconnect and returning promptly. -/
theorem disconnect_leaves_pending_waiters (st : CommState) :
    (disconnect st).1.response_callbacks = st.response_callbacks
    ∧ ∀ k e, assocGet st.response_callbacks k = some e →
        assocGet (disconnect st).1.response_callbacks k = some e :=
  ⟨rfl, fun _ _ he => he⟩

/-- **C9.** Processing pending triggered-alarm events preserves the at most
one-record-per-light-id invariant of the alarm-status list: with no record
for the light id the event appends exactly one fresh record; with an existing
record the list keeps its length and the record's code, value and timestamp
fields are overwritten in place; hence two triggered events for the same
light yield exactly one record for it, carrying the second event's fields. -/
theorem alarm_records_deduplicated (alarms : List JVal) (lid : Int)
    (c1 v1 c2 v2 : JVal) (ts1 ts2 : String) (hInv : alarmInv alarms) :
    alarmInv (processTriggeredAlarm alarms lid c1 v1 ts1)
    ∧ (recordsFor alarms lid = [] →
        processTriggeredAlarm alarms lid c1 v1 ts1 =
          alarms ++ [JVal.obj (mkAlarm lid c1 v1 ts1)])
    ∧ (recordsFor alarms lid ≠ [] →
        (processTriggeredAlarm alarms lid c1 v1 ts1).length = alarms.length)
    ∧ (recordsFor (processTriggeredAlarm alarms lid c1 v1 ts1) lid).map
        alarmFields = [(some c1, some v1, some (JVal.s ts1))]
    ∧ (recordsFor (processTriggeredAlarm
          (processTriggeredAlarm alarms lid c1 v1 ts1) lid c2 v2 ts2)
        lid).map alarmFields = [(some c2, some v2, some (JVal.s ts2))] := by
  have hInv1 := processTriggeredAlarm_inv alarms lid c1 v1 ts1 hInv
  refine ⟨hInv1, ?_, ?_,
    recordsFor_processTriggeredAlarm alarms lid c1 v1 ts1 (hInv lid),
    recordsFor_processTriggeredAlarm _ lid c2 v2 ts2 (hInv1 lid)⟩
  · intro hempty
    unfold processTriggeredAlarm
    rw [(updateFirstAlarm_none_iff c1 v1 ts1 lid alarms).mpr hempty]
  · intro hne
    unfold processTriggeredAlarm
    cases hu : updateFirstAlarm c1 v1 ts1 lid alarms with
    | none => exact absurd ((updateFirstAlarm_none_iff _ _ _ _ _).mp hu) hne
    | some l' => exact updateFirstAlarm_length _ _ _ _ _ _ hu

/-- Witness for C9: two triggered events for light 2 on an initially empty
alarm list. -/
theorem alarm_records_deduplicated_witness :
    alarmInv [] ∧
    (alarmInv (processTriggeredAlarm [] 2 (JVal.s "OVER_TEMP") (JVal.n 82) "t1")
      ∧ (recordsFor [] 2 = [] →
          processTriggeredAlarm [] 2 (JVal.s "OVER_TEMP") (JVal.n 82) "t1" =
            [] ++ [JVal.obj (mkAlarm 2 (JVal.s "OVER_TEMP") (JVal.n 82) "t1")])
      ∧ (recordsFor [] 2 ≠ [] →
          (processTriggeredAlarm [] 2 (JVal.s "OVER_TEMP") (JVal.n 82)
            "t1").length = ([] : List JVal).length)
      ∧ (recordsFor (processTriggeredAlarm [] 2 (JVal.s "OVER_TEMP") (JVal.n 82)
            "t1") 2).map alarmFields =
          [(some (JVal.s "OVER_TEMP"), some (JVal.n 82), some (JVal.s "t1"))]
      ∧ (recordsFor (processTriggeredAlarm
            (processTriggeredAlarm [] 2 (JVal.s "OVER_TEMP") (JVal.n 82) "t1")
            2 (JVal.s "OVER_CURRENT") (JVal.n 46) "t2") 2).map alarmFields =
          [(some (JVal.s "OVER_CURRENT"), some (JVal.n 46), some (JVal.s "t2"))]) :=
  ⟨fun _ => by simp [recordsFor],
   alarm_records_deduplicated [] 2 (JVal.s "OVER_TEMP") (JVal.n 82)
     (JVal.s "OVER_CURRENT") (JVal.n 46) "t1" "t2"
     (fun _ => by simp [recordsFor])⟩

theorem get_close_open (p q : List SysEvent) (e1 e2 : SysEvent)
    (hmem : e1 ∈ p) :
    ∃ i j, i < j ∧ (p ++ e2 :: q).get? i = some e1
      ∧ (p ++ e2 :: q).get? j = some e2 := by
  obtain ⟨i, hi⟩ := List.get?_of_mem hmem
  have hilt : i < p.length := by
    by_contra hge
    rw [List.get?_eq_none.mpr (by omega)] at hi
    cases hi
  refine ⟨i, p.length, hilt, ?_, ?_⟩
  · rw [List.get?_append hilt]
    exact hi
  · rw [List.get?_append_right (le_refl _)]
    simp

/-- **C10.** Calling `connect` on an already connected communicator first
performs the full `disconnect` — the state from which the new port is opened
has both worker threads stopped and dropped, the old serial handle closed and
dropped, and the connected/running flags cleared — and in the side-effect
trace the close of the previously held handle occurs strictly before the
open of the new one, so two serial handles are never held at once. -/
theorem connect_closes_before_open (st : CommState) (port : String)
    (baud newh oldh : Nat) (ping : SendOutcome)
    (hc : st.connected = true) (hold : st.serial_port = some oldh) :
    connect_preOpen st = (disconnect st).1
    ∧ (connect_preOpen st).serial_port = none
    ∧ (connect_preOpen st).receive_thread = none
    ∧ (connect_preOpen st).process_thread = none
    ∧ (connect_preOpen st).connected = false
    ∧ (connect_preOpen st).running = false
    ∧ ∃ i j, i < j
        ∧ (connect st port baud (some newh) ping).2.2.get? i =
            some (SysEvent.closeHandle oldh)
        ∧ (connect st port baud (some newh) ping).2.2.get? j =
            some (SysEvent.openHandle newh) := by
  have hpre : connect_preOpen st = (disconnect st).1 := by
    simp [connect_preOpen, hc]
  refine ⟨hpre, by rw [hpre]; rfl, by rw [hpre]; rfl, by rw [hpre]; rfl,
          by rw [hpre]; rfl, by rw [hpre]; rfl, ?_⟩
  have hshape : (connect st port baud (some newh) ping).2.2 =
      disconnectTrace st ++ SysEvent.openHandle newh ::
        (connectAfterOpen (connect_preOpen st) port baud newh ping).2.2 := by
    simp [connect, hc]
  rw [hshape]
  exact get_close_open _ _ _ _ (by simp [disconnectTrace, hold])

/-- Witness for C10: reconnecting a concrete connected communicator that
holds serial handle 3, opening new handle 9. -/
theorem connect_closes_before_open_witness :
    (connectedExample.connected = true ∧
      connectedExample.serial_port = some 3) ∧
    (connect_preOpen connectedExample = (disconnect connectedExample).1
      ∧ (connect_preOpen connectedExample).serial_port = none
      ∧ (connect_preOpen connectedExample).receive_thread = none
      ∧ (connect_preOpen connectedExample).process_thread = none
      ∧ (connect_preOpen connectedExample).connected = false
      ∧ (connect_preOpen connectedExample).running = false
      ∧ ∃ i j, i < j
          ∧ (connect connectedExample "COM4" 115200 (some 9)
              SendOutcome.timedOut).2.2.get? i =
              some (SysEvent.closeHandle 3)
          ∧ (connect connectedExample "COM4" 115200 (some 9)
              SendOutcome.timedOut).2.2.get? j =
              some (SysEvent.openHandle 9)) :=
  ⟨⟨rfl, rfl⟩,
   connect_closes_before_open connectedExample "COM4" 115200 9 3
     SendOutcome.timedOut rfl rfl⟩

end Illuminator
